import Mathlib

/-!
# A shallow embedding of the epsaku EPUB resolution and rendering core

This file embeds the core of the epsaku terminal EPUB reader
(`src/epub.rs` and `src/epub/render.rs`) in Lean 4 and settles the
claims of the specification against it.

Modelling conventions:

* XML documents (parsed by the external `roxmltree` library in the source)
  are modelled by the inductive type `Node`; functions that in the source
  call `Document::parse` take the parser as an explicit function parameter
  `parse : String → Option Node`, standing for the external library.
* Rust `Result<T, anyhow::Error>` is modelled by `RunResult`; a Rust panic
  (`unwrap()` on a missing value, out-of-bounds indexing) is modelled by the
  distinguished constructor `RunResult.panicked`, while errors constructed
  with `bail!`/`anyhow!`/`?` (returned to the caller) are `RunResult.error`.
  The pure tree walk `render_node` returns `Option`; `none` models a panic.
* `HashMap<String, String>` is modelled by an association list built in
  iteration order; `collect` overwrites earlier duplicates, so indexing is
  modelled by `hashMapGet`, which returns the last binding of a key.
* `ZipArchive` is modelled by an association list from entry name to entry
  content.  Reading an entry never changes the logical content of the
  archive (in the source only the file cursor moves), so the archive is
  modelled as an immutable value and the `&mut self` receiver of
  `Epub::render` is modelled by returning the (unchanged) `Epub` alongside
  the result.
* Rust `str::trim` is modelled by `rustTrim` (whitespace characters beyond
  the ASCII ones are not modelled); `str::split` on the slash character by
  `splitChar`.  The styled rendering of text done by crossterm
  (`ContentStyle::apply` and its `Display` instance) is modelled by
  `styleWrap`, which surrounds the content with the corresponding SGR
  escape codes when any attribute is set and returns the bare content
  otherwise.
-/

/-- Rust `char::is_whitespace`, restricted to the ASCII whitespace
characters (the only ones the development needs). -/
def isWsChar (c : Char) : Bool :=
  c == ' ' || c == '\t' || c == '\n' || c == '\x0d' || c == '\x0b' || c == '\x0c'

/-- Rust `str::trim`: remove leading and trailing whitespace. -/
def rustTrim (s : String) : String :=
  ⟨((s.data.dropWhile isWsChar).reverse.dropWhile isWsChar).reverse⟩

/-- Helper of `splitChar`: split the remaining characters, the characters
of the current fragment accumulated in reverse in `acc`. -/
def splitCharAux (sep : Char) : List Char → List Char → List String
  | [], acc => [⟨acc.reverse⟩]
  | c :: rest, acc =>
      if c == sep then ⟨acc.reverse⟩ :: splitCharAux sep rest []
      else splitCharAux sep rest (c :: acc)

/-- Rust `str::split` for a single-character pattern. -/
def splitChar (sep : Char) (s : String) : List String :=
  splitCharAux sep s.data []

/-- Outcome of a fallible Rust computation: `ok` and `error` model
`Result::Ok` and `Result::Err` (an `anyhow` error returned to the caller);
`panicked` models a Rust panic (`unwrap()` on `None`, index out of
bounds), which aborts rather than returning an error value. -/
inductive RunResult (α : Type) where
  | ok (val : α)
  | panicked (msg : String)
  | error (msg : String)
deriving Repr, DecidableEq

/-- True exactly on results that model a returned (caller-recoverable)
error value, as opposed to a success or a panic. -/
def RunResult.isReturnedError {α : Type} : RunResult α → Bool
  | .error _ => true
  | _ => false

/-- A parsed XML document tree, as produced by `roxmltree`: the document
root (`NodeType::Root`), element nodes with a tag name and attributes
(`NodeType::Element`), and text nodes (`NodeType::Text`). -/
inductive Node where
  | root (children : List Node)
  | element (tagName : String) (attributes : List (String × String)) (children : List Node)
  | text (content : String)
deriving Repr

/-- The `roxmltree` attribute lookup on an attribute list: the first
attribute with the given name, if any. -/
def Node.attributeOf (attrs : List (String × String)) (name : String) : Option String :=
  (attrs.find? (fun p => p.1 == name)).map (fun p => p.2)

/-- Attribute lookup on a node (empty for non-element nodes). -/
def Node.attribute (n : Node) (name : String) : Option String :=
  match n with
  | .element _ attrs _ => Node.attributeOf attrs name
  | _ => none

/-- The children of a node. -/
def Node.childrenOf : Node → List Node
  | .root cs => cs
  | .element _ _ cs => cs
  | .text _ => []

/-- The `roxmltree` tag-name test (only element nodes carry a tag
name). -/
def Node.hasTagName (n : Node) (name : String) : Bool :=
  match n with
  | .element t _ _ => t == name
  | _ => false

/-- The inherited per-walk style state of `src/epub/render.rs`
(`RenderAttributes`), all flags `false` by default. -/
structure RenderAttributes where
  body : Bool := false
  paragraph : Bool := false
  link : Bool := false
  bold : Bool := false
  italic : Bool := false
  underline : Bool := false
  nodisplay : Bool := false
  heading : Bool := false
deriving Repr, DecidableEq

/-- Whether a tag is one of h1 .. h6. -/
def isHeadingTag (t : String) : Bool :=
  t == "h1" || t == "h2" || t == "h3" || t == "h4" || t == "h5" || t == "h6"

/-- The per-tag update of the inherited attributes performed by the
element arm of the match in `render_node` (`src/epub/render.rs:27-57`).
The tags div, br and img leave the attributes unchanged. -/
def updateAttributes (tag : String) (a : RenderAttributes) : RenderAttributes :=
  if tag == "body" then { a with body := true }
  else if tag == "p" then { a with paragraph := true }
  else if tag == "a" then { a with link := true }
  else if tag == "b" || tag == "strong" then { a with bold := true }
  else if tag == "i" || tag == "em" then { a with italic := true }
  else if tag == "u" then { a with underline := true }
  else if tag == "script" || tag == "style" then { a with nodisplay := true }
  else if isHeadingTag tag then { a with heading := true }
  else a

/-- Whether the element arm sets the local `newline` flag: p, div and
h1..h6 do, and only when the inherited state is not already inside a
paragraph (`src/epub/render.rs:29-39,46-51`). -/
def triggersNewline (tag : String) (a : RenderAttributes) : Bool :=
  (tag == "p" || tag == "div" || isHeadingTag tag) && !a.paragraph

/-- The crossterm `StyledContent` display: SGR codes for the set
attributes, the content, and a reset — or the bare content when no
attribute is set. -/
def styleWrap (bold italic underlined reverse : Bool) (s : String) : String :=
  if bold || italic || underlined || reverse then
    (if bold then "\x1b[1m" else "") ++ (if italic then "\x1b[3m" else "")
      ++ (if underlined then "\x1b[4m" else "") ++ (if reverse then "\x1b[7m" else "")
      ++ s ++ "\x1b[0m"
  else s

/-- The style applied to emitted text (`src/epub/render.rs:63-78`):
heading adds bold and reverse video; italic, bold, and
(underline or link) each add their attribute. -/
def styledText (a : RenderAttributes) (s : String) : String :=
  styleWrap (a.heading || a.bold) a.italic (a.underline || a.link) a.heading s

/-- The condition under which the content of a text node is emitted
(`src/epub/render.rs:59-62`). -/
def textEmitted (a : RenderAttributes) : Bool :=
  a.body && !a.nodisplay && (a.paragraph || a.heading)

/-- The reverse-video image placeholder built by formatting the current
image count into the token IMG:n (`src/epub/render.rs:53`). -/
def imgPlaceholder (n : Nat) : String :=
  styleWrap false false false true ("[IMG:" ++ toString n ++ "]")

mutual

/-- `render_node` (`src/epub/render.rs:16-103`): walk one node, given the
image list accumulated so far and the inherited attributes; return the
produced output together with the extended image list.  `none` models the
panic of the unwrapped `src` attribute lookup on an img without one. -/
def render_node (node : Node) (images : List String) (attributes : RenderAttributes) :
    Option (String × List String) :=
  match node with
  | .text s =>
      -- Text nodes have no children; the newline and linebreak flags stay false.
      some (if textEmitted attributes then styledText attributes s else "", images)
  | .root cs =>
      -- The root node falls into the default arm of the match: children only.
      render_children cs images attributes
  | .element tag eattrs cs =>
      let newline := triggersNewline tag attributes
      let linebreak := tag == "br"
      let attributes' := updateAttributes tag attributes
      match (if tag == "img" then
               match Node.attributeOf eattrs "src" with
               | some src => some (imgPlaceholder images.length, images ++ [src])
               | none => none
             else some ("", images)) with
      | none => none
      | some (own, images₁) =>
          match render_children cs images₁ attributes' with
          | none => none
          | some (buf, images₂) =>
              let pre := own ++ (if linebreak then "\n" else "")
              let output :=
                if newline then
                  pre ++ rustTrim buf ++ (if rustTrim buf == "" then "" else "\n\n")
                else pre ++ buf
              some (output, images₂)

/-- The children loop of `render_node` (`src/epub/render.rs:88-91`):
concatenate the output of the children in document order, threading the
image list through. -/
def render_children (nodes : List Node) (images : List String)
    (attributes : RenderAttributes) : Option (String × List String) :=
  match nodes with
  | [] => some ("", images)
  | c :: cs =>
      match render_node c images attributes with
      | none => none
      | some (out, images') =>
          match render_children cs images' attributes with
          | none => none
          | some (buf, images'') => some (out ++ buf, images'')

end

/-- `find_node` (`src/epub.rs:141-150`) after splitting the path: descend
along the listed tag names, at each step into the first child with the
required tag name. -/
def find_node_aux (node : Node) : List String → Option Node
  | [] => some node
  | p :: rest =>
      match (Node.childrenOf node).find? (fun n => n.hasTagName p) with
      | some n => find_node_aux n rest
      | none => none

/-- `find_node` with the path split on the slash as in the source. -/
def find_node (root : Node) (path : String) : Option Node :=
  find_node_aux root (splitChar '/' path)

/-- The `Container` struct (`src/epub.rs:19-22`). -/
structure Container where
  package_path : String
  base_path : String
deriving Repr, DecidableEq

/-- The `Package` struct (`src/epub.rs:24-27`); the manifest `HashMap` is
modelled as the association list in collection order. -/
structure Package where
  manifest : List (String × String)
  spine : List String
deriving Repr, DecidableEq

/-- The body of `parse_container` after `Document::parse`
(`src/epub.rs:75-92`), taking the parsed document root.  Note that the
source joins the non-final path components with the empty-string
separator (`join` applied to the empty string). -/
def parse_container_doc (root : Node) : RunResult Container :=
  match find_node root "container/rootfiles/rootfile" with
  | none => .error "unable to find rootfile node"
  | some rootfile_node =>
      match rootfile_node.attribute "full-path" with
      | none => .error "rootfile node missing full-path attribute"
      | some package_path =>
          let package_path_components := splitChar '/' package_path
          let base_path := String.join package_path_components.dropLast
          .ok ⟨package_path, base_path⟩

/-- `parse_container` (`src/epub.rs:72-93`), with the `roxmltree` parser
as an explicit parameter; a parse failure is the returned error. -/
def parse_container (parse : String → Option Node) (xml : String) : RunResult Container :=
  match parse xml with
  | none => .error "failed to parse container"
  | some root => parse_container_doc root

/-- The manifest collection of `parse_package` (`src/epub.rs:100-113`):
for each child item element, map its id to base_path/href (or to the
plain href when `base_path` is empty); the unwrapped attribute lookups
panic when id or href is missing. -/
def manifestItems (base_path : String) : List Node → RunResult (List (String × String))
  | [] => .ok []
  | n :: rest =>
      if n.hasTagName "item" then
        match n.attribute "id" with
        | none => .panicked "called `Option::unwrap()` on a `None` value"
        | some id =>
            match n.attribute "href" with
            | none => .panicked "called `Option::unwrap()` on a `None` value"
            | some href =>
                let path := if base_path != "" then base_path ++ "/" ++ href else href
                match manifestItems base_path rest with
                | .ok tl => .ok ((id, path) :: tl)
                | .panicked m => .panicked m
                | .error m => .error m
      else manifestItems base_path rest

/-- Whether an itemref child passes the spine filter
(`src/epub.rs:119-126`): it must be an itemref, and its linear
attribute, when present, must be the string yes. -/
def spineIncluded (n : Node) : Bool :=
  n.hasTagName "itemref" &&
    (match n.attribute "linear" with
     | some linear => linear == "yes"
     | none => true)

/-- The spine collection of `parse_package` (`src/epub.rs:117-128`): the
idref of every child passing the filter, in order; the unwrapped idref
lookup panics when it is missing on an included itemref. -/
def spineItems : List Node → RunResult (List String)
  | [] => .ok []
  | n :: rest =>
      if spineIncluded n then
        match n.attribute "idref" with
        | none => .panicked "called `Option::unwrap()` on a `None` value"
        | some idref =>
            match spineItems rest with
            | .ok tl => .ok (idref :: tl)
            | .panicked m => .panicked m
            | .error m => .error m
      else spineItems rest

/-- The body of `parse_package` after `Document::parse`
(`src/epub.rs:95-131`), taking the parsed document root.  The error
message for a missing spine node repeats the word manifest exactly as in
the source. -/
def parse_package_doc (root : Node) (base_path : String) : RunResult Package :=
  match find_node root "package/manifest" with
  | none => .error "unable to find manifest node"
  | some manifest_node =>
      match manifestItems base_path manifest_node.childrenOf with
      | .panicked m => .panicked m
      | .error m => .error m
      | .ok manifest =>
          match find_node root "package/spine" with
          | none => .error "unable to find manifest node"
          | some spine_node =>
              match spineItems spine_node.childrenOf with
              | .panicked m => .panicked m
              | .error m => .error m
              | .ok spine => .ok ⟨manifest, spine⟩

/-- `parse_package` (`src/epub.rs:95-131`), with the parser explicit. -/
def parse_package (parse : String → Option Node) (xml : String) (base_path : String) :
    RunResult Package :=
  match parse xml with
  | none => .error "failed to parse package"
  | some root => parse_package_doc root base_path

/-- `read_archive` (`src/epub.rs:133-139`): the archive is the list of
(entry name, UTF-8 content) pairs; a missing entry is the context-wrapped
error returned through the question-mark operator. -/
def read_archive (archive : List (String × String)) (path : String) : RunResult String :=
  match archive.find? (fun e => e.1 == path) with
  | some e => .ok e.2
  | none => .error (path ++ ": file not found in archive")

/-- `HashMap` indexing (the manifest lookup in `Epub::render`): the map
built by `collect` keeps the last binding of each key; absence panics at
the use site. -/
def hashMapGet (m : List (String × String)) (key : String) : Option String :=
  (m.reverse.find? (fun p => p.1 == key)).map (fun p => p.2)

/-- The `Epub` struct (`src/epub.rs:13-17`). -/
structure Epub where
  archive : List (String × String)
  manifest : List (String × String)
  spine : List String
deriving Repr, DecidableEq

/-- The part of `Epub::new` after the mimetype check
(`src/epub.rs:39-53`): read and parse the container, then read and parse
the package, and assemble the `Epub`. -/
def epubNewRest (parse : String → Option Node) (archive : List (String × String)) :
    RunResult Epub :=
  match read_archive archive "META-INF/container.xml" with
  | .panicked m => .panicked m
  | .error m => .error m
  | .ok container_xml =>
      match parse_container parse container_xml with
      | .panicked m => .panicked m
      | .error m => .error m
      | .ok c =>
          match read_archive archive c.package_path with
          | .panicked m => .panicked m
          | .error m => .error m
          | .ok package_xml =>
              match parse_package parse package_xml c.base_path with
              | .panicked m => .panicked m
              | .error m => .error m
              | .ok pkg => .ok ⟨archive, pkg.manifest, pkg.spine⟩

/-- `Epub::new` (`src/epub.rs:30-54`), beginning with the mimetype check
(`src/epub.rs:34-37`): reading the mimetype entry, its trimmed content
must equal application/epub+zip, otherwise the bail macro returns a
format error. -/
def Epub.new (parse : String → Option Node) (archive : List (String × String)) :
    RunResult Epub :=
  match read_archive archive "mimetype" with
  | .panicked m => .panicked m
  | .error m => .error m
  | .ok mimetype =>
      if rustTrim mimetype != "application/epub+zip" then
        .error ("invalid mimetype: " ++ mimetype)
      else epubNewRest parse archive

/-- `Epub::render` (`src/epub.rs:60-69`): the spine indexing and the
manifest indexing panic when absent; the chapter is then read, parsed
and walked with default attributes.  The `&mut self` receiver only moves
the archive cursor, so the logical state is returned unchanged. -/
def Epub.render (parse : String → Option Node) (e : Epub) (index : Nat) :
    RunResult String × Epub :=
  match e.spine[index]? with
  | none => (.panicked "index out of bounds", e)
  | some id =>
      match hashMapGet e.manifest id with
      | none => (.panicked "key not found", e)
      | some path =>
          match read_archive e.archive path with
          | .panicked m => (.panicked m, e)
          | .error m => (.error m, e)
          | .ok xml =>
              match parse xml with
              | none => (.error "failed to parse chapter", e)
              | some doc =>
                  match render_node doc [] {} with
                  | none => (.panicked "called `Option::unwrap()` on a `None` value", e)
                  | some (text, _) => (.ok text, e)

mutual

/-- All src attribute values of the img elements of a subtree, in
document order (an img contributes its src before its descendants, as in
the walk). -/
def imgSrcs : Node → List String
  | .text _ => []
  | .root cs => imgSrcsList cs
  | .element t ea cs =>
      (if t == "img" then (Node.attributeOf ea "src").toList else []) ++ imgSrcsList cs

/-- `imgSrcs` over a list of siblings, in order. -/
def imgSrcsList : List Node → List String
  | [] => []
  | c :: cs => imgSrcs c ++ imgSrcsList cs

end

mutual

/-- A copy of a subtree with the content of every text node replaced by
the empty string; rendering a suppressed subtree is invariant under this
(which is the formal sense in which suppressed text never appears). -/
def eraseTexts : Node → Node
  | .text _ => .text ""
  | .root cs => .root (eraseTextsList cs)
  | .element t ea cs => .element t ea (eraseTextsList cs)

/-- `eraseTexts` over a list of siblings. -/
def eraseTextsList : List Node → List Node
  | [] => []
  | c :: cs => eraseTexts c :: eraseTextsList cs

end

/-- The spine as the specification describes it: exactly the idref values
of the itemref children, in document order, excluding precisely those
itemrefs that carry a linear attribute whose value is not yes (an
itemref with linear yes or with no linear attribute is included). -/
def spineSpec (cs : List Node) : List String :=
  cs.filterMap (fun n =>
    if n.hasTagName "itemref" &&
        (match n.attribute "linear" with
         | some linear => linear == "yes"
         | none => true) then
      n.attribute "idref"
    else none)

/-- A one-paragraph chapter document used by the concrete C2 evidence. -/
def chapterDocC2 : Node :=
  .root [.element "html" [] [.element "body" [] [.element "p" [] [.text "Hi"]]]]

/-- A publication whose only chapter is `chapterDocC2`. -/
def epubC2 : Epub := ⟨[("c1.xhtml", "CH1")], [("c1", "c1.xhtml")], ["c1"]⟩

/-- A parser mapping the raw chapter entry of `epubC2` to its tree. -/
def parseC2 : String → Option Node := fun s => if s = "CH1" then some chapterDocC2 else none

/-- The two-image chapter document of the C3 example. -/
def imgDocC3 : Node :=
  .root [.element "body" [] [.element "p" []
    [.element "img" [("src", "a.png")] [], .element "img" [("src", "b.png")] []]]]

/-- A chapter document whose only img sits inside a script subtree. -/
def scriptImgDocC10 : Node :=
  .root [.element "body" [] [.element "script" [] [.element "img" [("src", "x.png")] []]]]

/-- The package document of the spine example of C4. -/
def packageDocC4 : Node :=
  .root [.element "package" []
    [.element "manifest" [] [],
     .element "spine" []
       [.element "itemref" [("idref", "c1")] [],
        .element "itemref" [("idref", "c2"), ("linear", "no")] [],
        .element "itemref" [("idref", "c3"), ("linear", "yes")] []]]]

/-- A container document whose package path has two directory levels. -/
def containerDocC5 : Node :=
  .root [.element "container" [] [.element "rootfiles" []
    [.element "rootfile" [("full-path", "A/B/pkg.opf")] []]]]

/-- A package document with a manifest item that has no id attribute. -/
def packageDocC7 : Node :=
  .root [.element "package" []
    [.element "manifest" [] [.element "item" [("href", "a.xhtml")] []],
     .element "spine" [] []]]

/-- A publication whose spine names an id absent from the manifest. -/
def epubC8 : Epub := ⟨[("c1.xhtml", "CH1")], [], ["c1"]⟩

/-- A parser that parses nothing (never reached in the C8 evidence). -/
def parseC8 : String → Option Node := fun _ => none

/-- A package document whose spine references an id with no manifest
entry. -/
def packageDocC8 : Node :=
  .root [.element "package" []
    [.element "manifest" [] [],
     .element "spine" [] [.element "itemref" [("idref", "ghost")] []]]]

/-- The chapter document of the C9 end-to-end publication. -/
def chapterDocC9 : Node :=
  .root [.element "html" [] [.element "body" [] [.element "p" [] [.text "Hello"]]]]

/-- The container document of the C9 end-to-end publication. -/
def containerDocC9 : Node :=
  .root [.element "container" [] [.element "rootfiles" []
    [.element "rootfile" [("full-path", "content.opf")] []]]]

/-- The package document of the C9 end-to-end publication. -/
def packageDocC9 : Node :=
  .root [.element "package" []
    [.element "manifest" [] [.element "item" [("id", "c1"), ("href", "ch1.xhtml")] []],
     .element "spine" [] [.element "itemref" [("idref", "c1")] []]]]

/-- The archive of the C9 end-to-end publication. -/
def archiveC9 : List (String × String) :=
  [("mimetype", "application/epub+zip"), ("META-INF/container.xml", "CONTAINER"),
   ("content.opf", "PACKAGE"), ("ch1.xhtml", "CHAPTER")]

/-- The parser of the C9 end-to-end publication. -/
def parseC9 : String → Option Node := fun s =>
  if s = "CONTAINER" then some containerDocC9
  else if s = "PACKAGE" then some packageDocC9
  else if s = "CHAPTER" then some chapterDocC9
  else none

/-- The `Epub` value that opening `archiveC9` produces. -/
def epubC9 : Epub := ⟨archiveC9, [("c1", "ch1.xhtml")], ["c1"]⟩

mutual

/-- Success of the walk extends the image list by exactly the src values
of the subtree, in document order. -/
theorem render_node_images (n : Node) (images : List String) (a : RenderAttributes)
    (o : String) (images' : List String) (h : render_node n images a = some (o, images')) :
    images' = images ++ imgSrcs n := by
  cases n with
  | text s =>
      simp only [render_node, Option.some.injEq, Prod.mk.injEq] at h
      simp [imgSrcs, ← h.2]
  | root cs =>
      simp only [render_node] at h
      simpa [imgSrcs] using render_children_images cs images a o images' h
  | element tag eattrs cs =>
      simp only [render_node] at h
      split at h
      · exact absurd h (by simp)
      · rename_i own images₁ heq₁
        split at h
        · exact absurd h (by simp)
        · rename_i buf images₂ heq₂
          simp only [Option.some.injEq, Prod.mk.injEq] at h
          have hc := render_children_images cs images₁ (updateAttributes tag a) buf images₂ heq₂
          cases htag : tag == "img" with
          | false =>
            simp only [htag, Bool.false_eq_true, if_false, Option.some.injEq,
              Prod.mk.injEq] at heq₁
            simp [imgSrcs, htag, ← h.2, hc, ← heq₁.2]
          | true =>
            simp only [htag, if_true] at heq₁
            cases hsrc : Node.attributeOf eattrs "src" with
            | none => simp [hsrc] at heq₁
            | some src =>
                simp only [hsrc, Option.some.injEq, Prod.mk.injEq] at heq₁
                simp [imgSrcs, htag, hsrc, ← h.2, hc, ← heq₁.2]

/-- The sibling-list version of `render_node_images`. -/
theorem render_children_images (l : List Node) (images : List String) (a : RenderAttributes)
    (o : String) (images' : List String) (h : render_children l images a = some (o, images')) :
    images' = images ++ imgSrcsList l := by
  cases l with
  | nil =>
      simp only [render_children, Option.some.injEq, Prod.mk.injEq] at h
      simp [imgSrcsList, ← h.2]
  | cons c cs =>
      simp only [render_children] at h
      split at h
      · exact absurd h (by simp)
      · rename_i out images₁ heq₁
        split at h
        · exact absurd h (by simp)
        · rename_i buf images₂ heq₂
          simp only [Option.some.injEq, Prod.mk.injEq] at h
          have h1 := render_node_images c images a out images₁ heq₁
          have h2 := render_children_images cs images₁ a buf images₂ heq₂
          simp [imgSrcsList, ← h.2, h2, h1]

end

/-- No tag resets the suppressed flag: the attribute update preserves it. -/
theorem updateAttributes_nodisplay (t : String) (a : RenderAttributes)
    (h : a.nodisplay = true) : (updateAttributes t a).nodisplay = true := by
  unfold updateAttributes
  split_ifs <;> simp [h]

mutual

/-- Inside a suppressed subtree the walk is invariant under erasing all
text content: suppressed text never reaches the output or the image
list. -/
theorem render_node_eraseTexts (n : Node) (a : RenderAttributes) (h : a.nodisplay = true) :
    ∀ images, render_node n images a = render_node (eraseTexts n) images a := by
  intro images
  cases n with
  | text s => simp [render_node, eraseTexts, textEmitted, h]
  | root cs =>
      simp only [render_node, eraseTexts]
      exact render_children_eraseTexts cs a h images
  | element tag eattrs cs =>
      have hc := render_children_eraseTexts cs (updateAttributes tag a)
        (updateAttributes_nodisplay tag a h)
      simp only [render_node, eraseTexts]
      simp only [hc]

/-- The sibling-list version of `render_node_eraseTexts`. -/
theorem render_children_eraseTexts (l : List Node) (a : RenderAttributes)
    (h : a.nodisplay = true) :
    ∀ images, render_children l images a = render_children (eraseTextsList l) images a := by
  intro images
  cases l with
  | nil => simp [render_children, eraseTextsList]
  | cons c cs =>
      have h1 := render_node_eraseTexts c a h images
      have h2 := render_children_eraseTexts cs a h
      simp only [render_children, eraseTextsList, ← h1]
      simp only [h2]

end

/-- When the inherited state is inside neither a paragraph nor a heading,
a text node among the children contributes nothing: the children render
the same with it removed. -/
theorem render_children_drop_text (s : String) (k2 : List Node) (a : RenderAttributes)
    (hp : a.paragraph = false) (hh : a.heading = false) :
    ∀ (k1 : List Node) (images : List String),
      render_children (k1 ++ Node.text s :: k2) images a =
        render_children (k1 ++ k2) images a := by
  intro k1
  induction k1 with
  | nil =>
      intro images
      simp only [List.nil_append, render_children, render_node, textEmitted, hp, hh]
      simp only [Bool.or_self, Bool.and_false]
      cases hres : render_children k2 images a with
      | none => simp [hres]
      | some p =>
          obtain ⟨buf, images2⟩ := p
          simp [hres]
  | cons c k1' ih =>
      intro images
      simp only [List.cons_append, render_children]
      cases hres : render_node c images a with
      | none => simp
      | some p =>
          obtain ⟨out, images1⟩ := p
          simp only [List.append_eq]
          rw [ih images1]

/-- A block-forming element (one that sets the newline flag) emits the
trimmed concatenation of the output of its descendants, followed by two
newlines exactly when that trimmed text is non-empty. -/
theorem render_element_newline (tag : String) (eattrs : List (String × String))
    (cs : List Node) (images : List String) (a : RenderAttributes)
    (h : triggersNewline tag a = true) :
    render_node (.element tag eattrs cs) images a =
      (render_children cs images (updateAttributes tag a)).map
        (fun p => (rustTrim p.1 ++ (if rustTrim p.1 == "" then "" else "\n\n"), p.2)) := by
  have h' := h
  simp only [triggersNewline, Bool.and_eq_true, Bool.or_eq_true, beq_iff_eq, isHeadingTag,
    Bool.not_eq_true'] at h'
  obtain ⟨htag, hpar⟩ := h'
  have himg : (tag == "img") = false := by
    simp only [beq_eq_false_iff_ne, ne_eq]
    rintro rfl
    simp at htag
  have hbr : (tag == "br") = false := by
    simp only [beq_eq_false_iff_ne, ne_eq]
    rintro rfl
    simp at htag
  simp only [render_node, himg, Bool.false_eq_true, if_false, h]
  cases hres : render_children cs images (updateAttributes tag a) with
  | none => simp
  | some p =>
      obtain ⟨buf, images2⟩ := p
      simp [hbr, h]

/-- A non-block element other than br and img contributes the output of
its descendants verbatim. -/
theorem render_element_inline (tag : String) (eattrs : List (String × String))
    (cs : List Node) (images : List String) (a : RenderAttributes)
    (hnl : triggersNewline tag a = false) (himg : (tag == "img") = false)
    (hbr : (tag == "br") = false) :
    render_node (.element tag eattrs cs) images a =
      render_children cs images (updateAttributes tag a) := by
  simp only [render_node, himg, Bool.false_eq_true, if_false, hnl]
  cases hres : render_children cs images (updateAttributes tag a) with
  | none => simp
  | some p =>
      obtain ⟨buf, images2⟩ := p
      simp [hbr]

/-- An img element with a src attribute emits the placeholder of the
current image count, appends the src value, and then renders its
children verbatim. -/
theorem render_img (eattrs : List (String × String)) (cs : List Node)
    (images : List String) (a : RenderAttributes) (src : String)
    (h : Node.attributeOf eattrs "src" = some src) :
    render_node (.element "img" eattrs cs) images a =
      (render_children cs (images ++ [src]) a).map
        (fun p => (imgPlaceholder images.length ++ p.1, p.2)) := by
  have hupd : updateAttributes "img" a = a := by simp [updateAttributes, isHeadingTag]
  have hnl : triggersNewline "img" a = false := by simp [triggersNewline, isHeadingTag]
  simp only [render_node, h, hupd, hnl]
  cases hres : render_children cs (images ++ [src]) a with
  | none => simp [hres]
  | some p =>
      obtain ⟨buf, images2⟩ := p
      simp [hres]

/-- A successful spine collection computes exactly the specification-side
spine. -/
theorem spineItems_ok (cs : List Node) : ∀ l, spineItems cs = .ok l → l = spineSpec cs := by
  induction cs with
  | nil =>
      intro l h
      simp only [spineItems, RunResult.ok.injEq] at h
      simp [spineSpec, ← h]
  | cons n rest ih =>
      intro l h
      simp only [spineItems] at h
      by_cases hinc : spineIncluded n = true
      · rw [if_pos hinc] at h
        cases hid : n.attribute "idref" with
        | none => rw [hid] at h; exact absurd h (by simp)
        | some idref =>
            rw [hid] at h
            cases hrest : spineItems rest with
            | ok tl =>
                rw [hrest] at h
                simp only [RunResult.ok.injEq] at h
                have := ih tl hrest
                simp only [spineSpec, List.filterMap_cons]
                simp only [spineIncluded] at hinc
                rw [if_pos hinc, hid, ← h, this, spineSpec]
            | panicked m => rw [hrest] at h; exact absurd h (by simp)
            | error m => rw [hrest] at h; exact absurd h (by simp)
      · rw [if_neg hinc] at h
        have := ih l h
        simp only [spineSpec, List.filterMap_cons]
        simp only [spineIncluded] at hinc
        rw [if_neg hinc, this, spineSpec]

/-- C1: for every chapter document the walk emits the content of a text
node if and only if the inherited state has inside-body set, does not
have suppressed set, and has inside-paragraph or inside-heading set; in
particular a script or style subtree renders independently of its text
content (its text never appears), and text directly under body with no
enclosing block contributes nothing. -/
theorem claim_text_emission_gating :
    (∀ (s : String) (images : List String) (a : RenderAttributes),
        render_node (.text s) images a =
          some ((if a.body && !a.nodisplay && (a.paragraph || a.heading) then styledText a s
                 else ""), images)) ∧
    (∀ (eattrs : List (String × String)) (cs : List Node) (images : List String)
        (a : RenderAttributes),
        render_node (.element "script" eattrs cs) images a =
          render_node (.element "script" eattrs (eraseTextsList cs)) images a) ∧
    (∀ (eattrs : List (String × String)) (cs : List Node) (images : List String)
        (a : RenderAttributes),
        render_node (.element "style" eattrs cs) images a =
          render_node (.element "style" eattrs (eraseTextsList cs)) images a) ∧
    (∀ (n : Node) (images : List String) (a : RenderAttributes), a.nodisplay = true →
        render_node n images a = render_node (eraseTexts n) images a) ∧
    (∀ (eattrs : List (String × String)) (k1 k2 : List Node) (s : String)
        (images : List String) (a : RenderAttributes),
        a.paragraph = false → a.heading = false →
        render_node (.element "body" eattrs (k1 ++ Node.text s :: k2)) images a =
          render_node (.element "body" eattrs (k1 ++ k2)) images a) := by
  refine ⟨?_, ?_, ?_, ?_, ?_⟩
  · intro s images a
    simp [render_node, textEmitted]
  · intro eattrs cs images a
    have hupd : (updateAttributes "script" a).nodisplay = true := by
      simp [updateAttributes]
    have hc := render_children_eraseTexts cs (updateAttributes "script" a) hupd
    simp only [render_node]
    simp only [hc]
  · intro eattrs cs images a
    have hupd : (updateAttributes "style" a).nodisplay = true := by
      simp [updateAttributes]
    have hc := render_children_eraseTexts cs (updateAttributes "style" a) hupd
    simp only [render_node]
    simp only [hc]
  · exact fun n images a h => render_node_eraseTexts n a h images
  · intro eattrs k1 k2 s images a hp hh
    have hp' : (updateAttributes "body" a).paragraph = false := by
      simp [updateAttributes, hp]
    have hh' : (updateAttributes "body" a).heading = false := by
      simp [updateAttributes, hh]
    have hd := render_children_drop_text s k2 (updateAttributes "body" a) hp' hh'
    simp only [render_node]
    simp only [hd]

/-- Witness for C1 at concrete inputs: a suppressed text node renders as
its erased copy, and a text child directly under body disappears. -/
theorem claim_text_emission_gating_witness :
    render_node (.text "T") [] ⟨true, true, false, false, false, false, true, false⟩ =
      render_node (eraseTexts (.text "T")) []
        ⟨true, true, false, false, false, false, true, false⟩ ∧
    render_node (.element "body" [] ([] ++ Node.text "T" :: [])) [] {} =
      render_node (.element "body" [] ([] ++ ([] : List Node))) [] {} := by
  constructor
  · exact claim_text_emission_gating.2.2.2.1 (.text "T") [] _ (by decide)
  · exact claim_text_emission_gating.2.2.2.2 [] [] [] "T" [] {} (by decide) (by decide)

/-- Counterexample to the final conjunct of C2: the text returned by the
render operation is the raw root-walk output, which on a concrete
one-paragraph chapter ends with two newlines and differs from its own
trim, so the final chapter text is not the trimmed concatenation. -/
theorem claim_final_trim_counterexample :
    render_node chapterDocC2 [] {} = some ("Hi\n\n", []) ∧
    (Epub.render parseC2 epubC2 0).1 = .ok "Hi\n\n" ∧
    rustTrim "Hi\n\n" = "Hi" ∧ ("Hi\n\n" : String) ≠ "Hi" :=
  ⟨rfl, rfl, by decide, by decide⟩

/-- C2 as amended: a block-forming element contributes the trimmed
concatenation of the output of its descendants followed by two newlines
exactly when non-empty; a non-block element (other than br and img)
contributes the output of its descendants verbatim; and the render
operation returns the root-walk output verbatim, without a final trim. -/
theorem claim_block_assembly_amended :
    (∀ (tag : String) (eattrs : List (String × String)) (cs : List Node)
        (images : List String) (a : RenderAttributes), triggersNewline tag a = true →
        render_node (.element tag eattrs cs) images a =
          (render_children cs images (updateAttributes tag a)).map
            (fun p => (rustTrim p.1 ++ (if rustTrim p.1 == "" then "" else "\n\n"), p.2))) ∧
    (∀ (tag : String) (eattrs : List (String × String)) (cs : List Node)
        (images : List String) (a : RenderAttributes), triggersNewline tag a = false →
        (tag == "img") = false → (tag == "br") = false →
        render_node (.element tag eattrs cs) images a =
          render_children cs images (updateAttributes tag a)) ∧
    (∀ (parse : String → Option Node) (e : Epub) (index : Nat) (id path xml : String)
        (doc : Node) (text : String) (imgs : List String),
        e.spine[index]? = some id → hashMapGet e.manifest id = some path →
        read_archive e.archive path = .ok xml → parse xml = some doc →
        render_node doc [] {} = some (text, imgs) →
        (Epub.render parse e index).1 = .ok text) := by
  refine ⟨render_element_newline, render_element_inline, ?_⟩
  intro parse e index id path xml doc text imgs h1 h2 h3 h4 h5
  simp [Epub.render, h1, h2, h3, h4, h5]

/-- Witness for C2 at concrete inputs: a paragraph block, an inline
anchor element, and the end-to-end render of the one-paragraph chapter. -/
theorem claim_block_assembly_amended_witness :
    render_node (.element "p" [] [Node.text "x"]) [] {} =
      (render_children [Node.text "x"] [] (updateAttributes "p" {})).map
        (fun p => (rustTrim p.1 ++ (if rustTrim p.1 == "" then "" else "\n\n"), p.2)) ∧
    render_node (.element "a" [] [Node.text "x"]) [] {} =
      render_children [Node.text "x"] [] (updateAttributes "a" {}) ∧
    (Epub.render parseC2 epubC2 0).1 = .ok "Hi\n\n" := by
  refine ⟨claim_block_assembly_amended.1 "p" [] [Node.text "x"] [] {} (by decide),
    claim_block_assembly_amended.2.1 "a" [] [Node.text "x"] [] {} (by decide) (by decide)
      (by decide),
    claim_block_assembly_amended.2.2 parseC2 epubC2 0 "c1" "c1.xhtml" "CH1" chapterDocC2
      "Hi\n\n" [] rfl rfl rfl rfl rfl⟩

/-- C3: a successful walk appends exactly the src values of the subtree,
in document order, to the image list; an img with a src emits the
placeholder of the current image count at its point of occurrence and
appends its src; and the two-image example document produces the
placeholders numbered zero and one and the image list a.png, b.png. -/
theorem claim_image_numbering :
    (∀ (n : Node) (images : List String) (a : RenderAttributes) (o : String)
        (images' : List String), render_node n images a = some (o, images') →
        images' = images ++ imgSrcs n) ∧
    (∀ (eattrs : List (String × String)) (cs : List Node) (images : List String)
        (a : RenderAttributes) (src : String), Node.attributeOf eattrs "src" = some src →
        render_node (.element "img" eattrs cs) images a =
          (render_children cs (images ++ [src]) a).map
            (fun p => (imgPlaceholder images.length ++ p.1, p.2))) ∧
    render_node imgDocC3 [] {} =
      some (imgPlaceholder 0 ++ imgPlaceholder 1 ++ "\n\n", ["a.png", "b.png"]) := by
  refine ⟨render_node_images, ?_, by decide⟩
  intro eattrs cs images a src h
  exact render_img eattrs cs images a src h

/-- Witness for C3 at a concrete img element. -/
theorem claim_image_numbering_witness :
    [("a.png" : String)] = [] ++ imgSrcs (.element "img" [("src", "a.png")] []) ∧
    render_node (.element "img" [("src", "a.png")] []) [] {} =
      (render_children [] ([] ++ ["a.png"]) {}).map
        (fun p => (imgPlaceholder (List.length ([] : List String)) ++ p.1, p.2)) := by
  refine ⟨claim_image_numbering.1 (.element "img" [("src", "a.png")] []) [] {}
      (imgPlaceholder 0) ["a.png"] (by decide), ?_⟩
  exact claim_image_numbering.2.1 [("src", "a.png")] [] [] {} "a.png" (by decide)

/-- C10: an img element emits its placeholder and appends its src for
every inherited state, including outside body and inside a suppressed
subtree (the text gating never applies to images); a suppressed subtree
still contributes its src values to the image list; and the concrete
script-wrapped img still numbers and records its image. -/
theorem claim_img_ungated :
    (∀ (a : RenderAttributes) (eattrs : List (String × String)) (images : List String)
        (src : String), Node.attributeOf eattrs "src" = some src →
        render_node (.element "img" eattrs []) images a =
          some (imgPlaceholder images.length, images ++ [src])) ∧
    (∀ (n : Node) (images : List String) (a : RenderAttributes) (o : String)
        (images' : List String), a.nodisplay = true →
        render_node n images a = some (o, images') → images' = images ++ imgSrcs n) ∧
    render_node scriptImgDocC10 [] {} = some (imgPlaceholder 0, ["x.png"]) := by
  refine ⟨?_, ?_, by decide⟩
  · intro a eattrs images src h
    rw [render_img eattrs [] images a src h]
    simp [render_children]
  · exact fun n images a o images' _ h => render_node_images n images a o images' h

/-- Witness for C10: the img renders identically under a fully suppressed
state, and the suppressed subtree contributes its src value. -/
theorem claim_img_ungated_witness :
    render_node (.element "img" [("src", "x.png")] []) []
        ⟨false, false, false, false, false, false, true, false⟩ =
      some (imgPlaceholder 0, ["x.png"]) ∧
    [("x.png" : String)] = [] ++ imgSrcs scriptImgDocC10 := by
  constructor
  · exact claim_img_ungated.1 ⟨false, false, false, false, false, false, true, false⟩
      [("src", "x.png")] [] "x.png" (by decide)
  · exact claim_img_ungated.2.1 scriptImgDocC10 []
      ⟨false, false, false, false, false, false, true, false⟩ (imgPlaceholder 0) ["x.png"]
      (by decide) (by decide)

/-- C4: whenever package resolution succeeds, the built spine is exactly
the idref values of the itemref children of the spine section, in
document order, excluding precisely those itemrefs whose linear
attribute is present with a value other than yes. -/
theorem claim_spine_filter (root : Node) (base : String) (pkg : Package)
    (h : parse_package_doc root base = .ok pkg) :
    ∃ spine_node, find_node root "package/spine" = some spine_node ∧
      pkg.spine = spineSpec spine_node.childrenOf := by
  simp only [parse_package_doc] at h
  split at h
  · exact absurd h (by simp)
  · rename_i manifest_node hm
    split at h
    · exact absurd h (by simp)
    · exact absurd h (by simp)
    · rename_i manifest hman
      split at h
      · exact absurd h (by simp)
      · rename_i spine_node hs
        split at h
        · exact absurd h (by simp)
        · exact absurd h (by simp)
        · rename_i spine hspine
          simp only [RunResult.ok.injEq] at h
          refine ⟨spine_node, hs, ?_⟩
          rw [← h]
          exact spineItems_ok _ spine hspine

/-- Witness for C4 at the example of the specification: the spine built
from itemrefs c1 (no linear), c2 (linear no) and c3 (linear yes) is
exactly c1, c3. -/
theorem claim_spine_filter_witness :
    (∃ spine_node, find_node packageDocC4 "package/spine" = some spine_node ∧
      (Package.mk [] ["c1", "c3"]).spine = spineSpec spine_node.childrenOf) ∧
    parse_package_doc packageDocC4 "" = .ok ⟨[], ["c1", "c3"]⟩ :=
  ⟨claim_spine_filter packageDocC4 "" ⟨[], ["c1", "c3"]⟩ (by decide), by decide⟩

/-- C5: evaluating the embedded code at the failing input.  For package
path A/B/pkg.opf the source computes base path AB — the non-final
segments concatenated with no separator, because the source joins them
with the empty string — and not A/B as the claim states; the manifest
href resolution itself behaves as claimed for both a non-empty and an
empty base path. -/
theorem claim_base_path_evaluation :
    parse_container_doc containerDocC5 = .ok ⟨"A/B/pkg.opf", "AB"⟩ ∧
    ("AB" : String) ≠ "A/B" ∧
    manifestItems "OEBPS" [.element "item" [("id", "c1"), ("href", "text/ch1.xhtml")] []] =
      .ok [("c1", "OEBPS/text/ch1.xhtml")] ∧
    manifestItems "" [.element "item" [("id", "c1"), ("href", "text/ch1.xhtml")] []] =
      .ok [("c1", "text/ch1.xhtml")] :=
  ⟨by decide, by decide, by decide, by decide⟩

/-- C6: opening an archive whose trimmed mimetype entry is not the
literal application/epub+zip fails with the invalid-mimetype format
error whatever the rest of the archive holds, and when the trimmed
content equals the literal the check passes (opening proceeds to the
container stage). -/
theorem claim_mimetype_check (parse : String → Option Node)
    (archive : List (String × String)) (m : String)
    (h : read_archive archive "mimetype" = .ok m) :
    (rustTrim m ≠ "application/epub+zip" →
        Epub.new parse archive = .error ("invalid mimetype: " ++ m)) ∧
    (rustTrim m = "application/epub+zip" →
        Epub.new parse archive = epubNewRest parse archive) := by
  constructor
  · intro hne
    simp [Epub.new, h, hne]
  · intro heq
    simp [Epub.new, h, heq]

/-- Witness for C6: a wrong mimetype fails even though another entry
exists, and the exact literal (with trailing newline trimmed away)
passes. -/
theorem claim_mimetype_check_witness :
    Epub.new (fun _ => none) [("mimetype", "text/plain"), ("chapter", "x")] =
      .error ("invalid mimetype: " ++ "text/plain") ∧
    Epub.new (fun _ => none) [("mimetype", "application/epub+zip\n")] =
      epubNewRest (fun _ => none) [("mimetype", "application/epub+zip\n")] := by
  constructor
  · exact (claim_mimetype_check (fun _ => none) [("mimetype", "text/plain"), ("chapter", "x")]
      "text/plain" (by decide)).1 (by decide)
  · exact (claim_mimetype_check (fun _ => none) [("mimetype", "application/epub+zip\n")]
      "application/epub+zip\n" (by decide)).2 (by decide)

/-- Counterexample to C7: on a package document whose manifest item lacks
its id attribute, package resolution does not return a format error — it
panics (the source unwraps the attribute), so the failure is a crash,
not an error returned to the caller; likewise the walk of an img without
src panics rather than returning an error. -/
theorem claim_missing_attribute_counterexample :
    parse_package_doc packageDocC7 "" =
      .panicked "called `Option::unwrap()` on a `None` value" ∧
    (parse_package_doc packageDocC7 "").isReturnedError = false ∧
    render_node (.root [.element "body" [] [.element "p" [] [.element "img" [] []]]]) [] {} =
      none :=
  ⟨by decide, by decide, by decide⟩

/-- C7 as amended: a manifest item missing id or href makes package
resolution panic (abort) rather than return a format error; an img
missing src makes the chapter walk panic; only a missing manifest
section is reported as a returned format error. -/
theorem claim_missing_attribute_amended :
    (∀ (base : String) (n : Node) (rest : List Node), n.hasTagName "item" = true →
        n.attribute "id" = none →
        manifestItems base (n :: rest) =
          .panicked "called `Option::unwrap()` on a `None` value") ∧
    (∀ (base : String) (n : Node) (rest : List Node) (id : String),
        n.hasTagName "item" = true → n.attribute "id" = some id →
        n.attribute "href" = none →
        manifestItems base (n :: rest) =
          .panicked "called `Option::unwrap()` on a `None` value") ∧
    (∀ (eattrs : List (String × String)) (cs : List Node) (images : List String)
        (a : RenderAttributes), Node.attributeOf eattrs "src" = none →
        render_node (.element "img" eattrs cs) images a = none) ∧
    (∀ (root : Node) (base : String), find_node root "package/manifest" = none →
        parse_package_doc root base = .error "unable to find manifest node") := by
  refine ⟨?_, ?_, ?_, ?_⟩
  · intro base n rest ht hid
    simp [manifestItems, ht, hid]
  · intro base n rest id ht hid fhref
    simp [manifestItems, ht, hid, fhref]
  · intro eattrs cs images a h
    simp [render_node, h]
  · intro root base h
    simp [parse_package_doc, h]

/-- Witness for C7 at concrete items, img and package documents. -/
theorem claim_missing_attribute_amended_witness :
    manifestItems "" [Node.element "item" [("href", "a.xhtml")] []] =
      .panicked "called `Option::unwrap()` on a `None` value" ∧
    manifestItems "" [Node.element "item" [("id", "c1")] []] =
      .panicked "called `Option::unwrap()` on a `None` value" ∧
    render_node (.element "img" [] []) [] {} = none ∧
    parse_package_doc (.root []) "" = .error "unable to find manifest node" :=
  ⟨claim_missing_attribute_amended.1 "" (Node.element "item" [("href", "a.xhtml")] []) []
      (by decide) (by decide),
   claim_missing_attribute_amended.2.1 "" (Node.element "item" [("id", "c1")] []) [] "c1"
      (by decide) (by decide) (by decide),
   claim_missing_attribute_amended.2.2.1 [] [] [] {} (by decide),
   claim_missing_attribute_amended.2.2.2 (.root []) "" rfl⟩

/-- Counterexample to C8: rendering the publication whose spine entry c1
has no manifest binding does not surface a recoverable lookup error — it
panics on the map indexing; rendering an out-of-range index likewise
panics on the vector indexing.  Neither failure is a returned error. -/
theorem claim_dangling_idref_counterexample :
    (Epub.render parseC8 epubC8 0).1 = .panicked "key not found" ∧
    ((Epub.render parseC8 epubC8 0).1).isReturnedError = false ∧
    (Epub.render parseC8 epubC8 1).1 = .panicked "index out of bounds" ∧
    ((Epub.render parseC8 epubC8 1).1).isReturnedError = false :=
  ⟨by decide, by decide, by decide, by decide⟩

/-- C8 as amended: package resolution accepts a spine idref with no
manifest entry (the open operation does not reject it), and rendering
that entry, or any out-of-range index, panics (aborts) instead of
returning a recoverable lookup error. -/
theorem claim_dangling_idref_amended :
    (parse_package_doc packageDocC8 "" = .ok ⟨[], ["ghost"]⟩ ∧
     hashMapGet ([] : List (String × String)) "ghost" = none) ∧
    (∀ (parse : String → Option Node) (e : Epub) (index : Nat),
        e.spine.length ≤ index →
        (Epub.render parse e index).1 = .panicked "index out of bounds") ∧
    (∀ (parse : String → Option Node) (e : Epub) (index : Nat) (id : String),
        e.spine[index]? = some id → hashMapGet e.manifest id = none →
        (Epub.render parse e index).1 = .panicked "key not found") := by
  refine ⟨⟨by decide, by decide⟩, ?_, ?_⟩
  · intro parse e index h
    have hnone : e.spine[index]? = none := by
      rw [List.getElem?_eq_none_iff]
      exact h
    simp [Epub.render, hnone]
  · intro parse e index id h1 h2
    simp [Epub.render, h1, h2]

/-- Witness for C8 at the concrete dangling publication. -/
theorem claim_dangling_idref_amended_witness :
    (Epub.render parseC8 epubC8 5).1 = .panicked "index out of bounds" ∧
    (Epub.render parseC8 epubC8 0).1 = .panicked "key not found" :=
  ⟨claim_dangling_idref_amended.2.1 parseC8 epubC8 5 (by decide),
   claim_dangling_idref_amended.2.2 parseC8 epubC8 0 "c1" (by decide) (by decide)⟩

/-- C9: rendering leaves the facade state unchanged, and a second render
of the same index on the state left by the first yields the identical
result — the render operation holds no cache and mutates nothing
observable. -/
theorem claim_render_idempotent (parse : String → Option Node)
    (archive : List (String × String)) (e : Epub) (h : Epub.new parse archive = .ok e)
    (index : Nat) (hlt : index < e.spine.length) :
    (Epub.render parse e index).2 = e ∧
    (Epub.render parse ((Epub.render parse e index).2) index).1 =
      (Epub.render parse e index).1 := by
  have hsnd : (Epub.render parse e index).2 = e := by
    simp only [Epub.render]
    repeat' split
    all_goals rfl
  exact ⟨hsnd, by rw [hsnd]⟩

/-- Witness for C9: a full end-to-end publication is opened and its only
chapter rendered twice with byte-identical output. -/
theorem claim_render_idempotent_witness :
    Epub.new parseC9 archiveC9 = .ok epubC9 ∧
    (Epub.render parseC9 epubC9 0).1 = .ok "Hello\n\n" ∧
    (Epub.render parseC9 epubC9 0).2 = epubC9 ∧
    (Epub.render parseC9 ((Epub.render parseC9 epubC9 0).2) 0).1 =
      (Epub.render parseC9 epubC9 0).1 := by
  refine ⟨by decide, by decide, ?_, ?_⟩
  · exact (claim_render_idempotent parseC9 archiveC9 epubC9 (by decide) 0 (by decide)).1
  · exact (claim_render_idempotent parseC9 archiveC9 epubC9 (by decide) 0 (by decide)).2
